import Mathlib

/-!
Shallow embedding of the ScriNS incompressible-flow solver core
(collocated pressure-correction pipeline).

The program stores each transported quantity on a structured Cartesian
grid as a 3-D array of values together with six boundary slabs carrying
per-face boundary-condition kinds and values.  The pressure-correction
routine `calc_p` assembles a Poisson system, solves it with a stabilized
bi-conjugate-gradient iteration, anchors the solution to zero mean,
zeroes solid-obstacle cells and re-closes the Neumann boundaries.  The
time-step drivers sequence scalar transport, momentum transport, the
pressure solve, velocity correction and diagnostics.

Machine floating-point arrays are embedded as rational-valued arrays so
that all operations are exact; arrays are total functions over `Fin`
index ranges matching the interior extents of the Python `numpy` arrays.
-/

set_option maxHeartbeats 1000000

/-- Three-dimensional interior array of a field, indexed by the cell
(or face) extents, with rational entries standing for the floating-point
values of the `numpy` array. -/
abbrev Arr3 (nx ny nz : ℕ) : Type := Fin nx → Fin ny → Fin nz → ℚ

/-- Flattened index space of a three-dimensional array. -/
abbrev Idx3 (nx ny nz : ℕ) : Type := Fin nx × Fin ny × Fin nz

variable {nx ny nz : ℕ}

/-- The all-zero array, the embedding of `zeros(rc)`. -/
def zeroArr : Arr3 nx ny nz := fun _ _ _ => 0

/-- Sum of all entries of a 3-D array (the embedding of `numpy.sum`). -/
def sum3 (a : Arr3 nx ny nz) : ℚ := ∑ i, ∑ j, ∑ k, a i j k

/-- Arithmetic mean of all entries (the embedding of `numpy.mean`);
division by zero yields `0` for the degenerate empty grid. -/
def mean3 (a : Arr3 nx ny nz) : ℚ := sum3 a / ((nx * ny * nz : ℕ) : ℚ)

/-- The zero-mean anchor applied by `calc_p`:
`p.val[:] = p.val[:] - p.val.mean()`. -/
def anchor (a : Arr3 nx ny nz) : Arr3 nx ny nz := fun i j k => a i j k - mean3 a

/-- Maximum over all entries of a nonnegative-valued functional of the
array, folded against `0` (the embedding of `abs(a).max()`, which is
nonnegative on any nonempty array). -/
def maxAbs3 (a : Arr3 nx ny nz) : ℚ :=
  (List.finRange nx).foldr
    (fun i m =>
      max m ((List.finRange ny).foldr
        (fun j m2 =>
          max m2 ((List.finRange nz).foldr
            (fun k m3 => max m3 |a i j k|) 0)) 0)) 0

/-- Boundary-condition kind of one boundary face cell
(the constants `DIRICHLET`, `NEUMANN`, `OUTLET`). -/
inductive BCType where
  | dirichlet : BCType
  | neumann   : BCType
  | outlet    : BCType
deriving DecidableEq

/-- Position tag of an unknown (the constants `C`, `X`, `Y`, `Z`):
cell-centered or staggered on faces normal to one axis. -/
inductive VarPos where
  | cell  : VarPos
  | xFace : VarPos
  | yFace : VarPos
  | zFace : VarPos
deriving DecidableEq

/-- An unknown field: interior values, previous-time-step snapshot, and
six boundary records (West/East/South/North/Bottom/Top), each holding a
per-face-cell boundary-condition kind and a value slab matching that
face's 2-D extent. -/
structure Unknown (nx ny nz : ℕ) where
  name : String
  pos  : VarPos
  val  : Arr3 nx ny nz
  old  : Arr3 nx ny nz
  bndW_typ : Fin ny → Fin nz → BCType
  bndE_typ : Fin ny → Fin nz → BCType
  bndS_typ : Fin nx → Fin nz → BCType
  bndN_typ : Fin nx → Fin nz → BCType
  bndB_typ : Fin nx → Fin ny → BCType
  bndT_typ : Fin nx → Fin ny → BCType
  bndW_val : Fin ny → Fin nz → ℚ
  bndE_val : Fin ny → Fin nz → ℚ
  bndS_val : Fin nx → Fin nz → ℚ
  bndN_val : Fin nx → Fin nz → ℚ
  bndB_val : Fin nx → Fin ny → ℚ
  bndT_val : Fin nx → Fin ny → ℚ

/-- Modelled from the spec: `create_unknown` (source file missing from
src/) — "given a name, position tag, resolution tuple, and default
boundary-condition kind, returns an initialized field with zeroed
value/old_value arrays and six boundary records defaulted to that kind
with zero values". -/
def create_unknown (name : String) (pos : VarPos) (nx ny nz : ℕ) (bc : BCType) :
    Unknown nx ny nz where
  name := name
  pos := pos
  val := fun _ _ _ => 0
  old := fun _ _ _ => 0
  bndW_typ := fun _ _ => bc
  bndE_typ := fun _ _ => bc
  bndS_typ := fun _ _ => bc
  bndN_typ := fun _ _ => bc
  bndB_typ := fun _ _ => bc
  bndT_typ := fun _ _ => bc
  bndW_val := fun _ _ => 0
  bndE_val := fun _ _ => 0
  bndS_val := fun _ _ => 0
  bndN_val := fun _ _ => 0
  bndB_val := fun _ _ => 0
  bndT_val := fun _ _ => 0

/-- Modelled from the spec: `adj_n_bnds` (source file missing from
src/) — "reapply the zero-normal-gradient boundary closure (copy
adjacent interior value into each Neumann boundary slab)".  Boundary
cells whose kind is not Neumann keep their stored value.  On a
degenerate zero-extent axis there is no interior cell to copy and the
slab is left unchanged. -/
def adj_n_bnds (p : Unknown nx ny nz) : Unknown nx ny nz :=
  { p with
    bndW_val := fun j k =>
      if p.bndW_typ j k = BCType.neumann then
        (if h : 0 < nx then p.val ⟨0, h⟩ j k else p.bndW_val j k)
      else p.bndW_val j k
    bndE_val := fun j k =>
      if p.bndE_typ j k = BCType.neumann then
        (if h : 0 < nx then p.val ⟨nx - 1, by omega⟩ j k else p.bndE_val j k)
      else p.bndE_val j k
    bndS_val := fun i k =>
      if p.bndS_typ i k = BCType.neumann then
        (if h : 0 < ny then p.val i ⟨0, h⟩ k else p.bndS_val i k)
      else p.bndS_val i k
    bndN_val := fun i k =>
      if p.bndN_typ i k = BCType.neumann then
        (if h : 0 < ny then p.val i ⟨ny - 1, by omega⟩ k else p.bndN_val i k)
      else p.bndN_val i k
    bndB_val := fun i j =>
      if p.bndB_typ i j = BCType.neumann then
        (if h : 0 < nz then p.val i j ⟨0, h⟩ else p.bndB_val i j)
      else p.bndB_val i j
    bndT_val := fun i j =>
      if p.bndT_typ i j = BCType.neumann then
        (if h : 0 < nz then p.val i j ⟨nz - 1, by omega⟩ else p.bndT_val i j)
      else p.bndT_val i j }

/-- Modelled from the spec: `obst_zero_val` (source file missing from
src/) — "cells marked solid ... their field values are forced to
zero".  The position tag mirrors the Python call `obst_zero_val(p.pos,
p.val, obst)`; for the cell-centered fields treated here the mask and
the value array share the cell extents and solid means a nonzero mask
entry. -/
def obst_zero_val (_pos : VarPos) (val : Arr3 nx ny nz) (obst : Arr3 nx ny nz) :
    Arr3 nx ny nz :=
  fun i j k => if obst i j k ≠ 0 then 0 else val i j k

/-- The embedding of `obst.any() != 0`: whether any mask entry is
nonzero. -/
def any3 (a : Arr3 nx ny nz) : Bool :=
  decide (∃ i j k, a i j k ≠ 0)

/-- Modelled from the spec: `vol_balance` (source file missing from
src/) — "computes net volumetric flux imbalance per cell from
face-normal velocities ... per-cell net outflow = sum over six faces of
(face velocity × face area), with sign convention outward-positive".
The face velocity at a domain boundary comes from the face field's
boundary slab; interior faces come from the staggered interior array
(extent offset by one in the staggered direction).  Cells flagged in
the mask argument are zeroed, so that the call sites can choose whether
the mask is taken into account (`calc_p` passes `zeros(rc)`, the
post-correction diagnostic passes the actual mask). -/
def vol_balance (uf : Unknown (nx - 1) ny nz) (vf : Unknown nx (ny - 1) nz)
    (wf : Unknown nx ny (nz - 1)) (dx : Fin nx → ℚ) (dy : Fin ny → ℚ)
    (dz : Fin nz → ℚ) (obst : Arr3 nx ny nz) : Arr3 nx ny nz :=
  fun i j k =>
    if obst i j k ≠ 0 then 0
    else
      let uE : ℚ :=
        if h : (i : ℕ) < nx - 1 then uf.val ⟨i, h⟩ j k else uf.bndE_val j k
      let uW : ℚ :=
        if h : 0 < (i : ℕ) then
          uf.val ⟨(i : ℕ) - 1, by have := i.isLt; omega⟩ j k
        else uf.bndW_val j k
      let vN : ℚ :=
        if h : (j : ℕ) < ny - 1 then vf.val i ⟨j, h⟩ k else vf.bndN_val i k
      let vS : ℚ :=
        if h : 0 < (j : ℕ) then
          vf.val i ⟨(j : ℕ) - 1, by have := j.isLt; omega⟩ k
        else vf.bndS_val i k
      let wT : ℚ :=
        if h : (k : ℕ) < nz - 1 then wf.val i j ⟨k, h⟩ else wf.bndT_val i j
      let wB : ℚ :=
        if h : 0 < (k : ℕ) then
          wf.val i j ⟨(k : ℕ) - 1, by have := k.isLt; omega⟩
        else wf.bndB_val i j
      (uE - uW) * dy j * dz k + (vN - vS) * dx i * dz k + (wT - wB) * dx i * dy j

/-- Discretization-mode flag of `create_matrix`: the spec distinguishes
a "new variable, full diffusion+convection stencil" mode from a
"Poisson/pressure mode"; `calc_p` passes the pressure mode (`'n'`). -/
inductive DiscMode where
  | fullStencil : DiscMode
  | poisson     : DiscMode
deriving DecidableEq

/-- Modelled from the spec: `create_matrix` (source file missing from
src/) — "for each interior cell, compute face-conductance coefficients
to its six neighbors ..., assemble the seven-diagonal matrix (center +
6 neighbors ...), and fold boundary-condition contributions into the
diagonal and RHS: Dirichlet boundary cells contribute a conductance
term moved to RHS with the boundary value; Neumann boundaries
contribute zero flux (coefficient dropped, no RHS term); Outlet
boundaries behave like a one-sided extrapolation (zero normal gradient
...).  For every obstacle cell, overwrite its row to identity (diagonal
= 1, all off-diagonals = 0, RHS = 0) and for every off-diagonal
reference to an obstacle-cell neighbor from a fluid cell's row, drop
that coefficient and fold it to zero-flux".  Face conductances use the
arithmetic mean of the coefficient field at the two cells times the
face area over the center distance.  The spec's convection contribution
of the full mode cannot be formed from the stated inputs (no velocity
argument), so the mode flag is threaded but both modes assemble the
same diffusion stencil. -/
def create_matrix (phi : Unknown nx ny nz) (inn : Arr3 nx ny nz)
    (mu : Arr3 nx ny nz) (dx : Fin nx → ℚ) (dy : Fin ny → ℚ) (dz : Fin nz → ℚ)
    (obst : Arr3 nx ny nz) (_mode : DiscMode) :
    (Idx3 nx ny nz → Idx3 nx ny nz → ℚ) × Arr3 nx ny nz :=
  -- interior-face conductances; a neighbor inside an obstacle is a no-flux wall
  let aE : Fin nx → Fin ny → Fin nz → ℚ := fun i j k =>
    if h : (i : ℕ) + 1 < nx then
      let iE : Fin nx := ⟨(i : ℕ) + 1, h⟩
      if obst iE j k ≠ 0 then 0
      else ((mu i j k + mu iE j k) / 2) * dy j * dz k / ((dx i + dx iE) / 2)
    else 0
  let aW : Fin nx → Fin ny → Fin nz → ℚ := fun i j k =>
    if h : 0 < (i : ℕ) then
      let iW : Fin nx := ⟨(i : ℕ) - 1, by have := i.isLt; omega⟩
      if obst iW j k ≠ 0 then 0
      else ((mu i j k + mu iW j k) / 2) * dy j * dz k / ((dx i + dx iW) / 2)
    else 0
  let aN : Fin nx → Fin ny → Fin nz → ℚ := fun i j k =>
    if h : (j : ℕ) + 1 < ny then
      let jN : Fin ny := ⟨(j : ℕ) + 1, h⟩
      if obst i jN k ≠ 0 then 0
      else ((mu i j k + mu i jN k) / 2) * dx i * dz k / ((dy j + dy jN) / 2)
    else 0
  let aS : Fin nx → Fin ny → Fin nz → ℚ := fun i j k =>
    if h : 0 < (j : ℕ) then
      let jS : Fin ny := ⟨(j : ℕ) - 1, by have := j.isLt; omega⟩
      if obst i jS k ≠ 0 then 0
      else ((mu i j k + mu i jS k) / 2) * dx i * dz k / ((dy j + dy jS) / 2)
    else 0
  let aT : Fin nx → Fin ny → Fin nz → ℚ := fun i j k =>
    if h : (k : ℕ) + 1 < nz then
      let kT : Fin nz := ⟨(k : ℕ) + 1, h⟩
      if obst i j kT ≠ 0 then 0
      else ((mu i j k + mu i j kT) / 2) * dx i * dy j / ((dz k + dz kT) / 2)
    else 0
  let aB : Fin nx → Fin ny → Fin nz → ℚ := fun i j k =>
    if h : 0 < (k : ℕ) then
      let kB : Fin nz := ⟨(k : ℕ) - 1, by have := k.isLt; omega⟩
      if obst i j kB ≠ 0 then 0
      else ((mu i j k + mu i j kB) / 2) * dx i * dy j / ((dz k + dz kB) / 2)
    else 0
  -- Dirichlet boundary conductances, folded into the diagonal and the RHS;
  -- Neumann and Outlet boundary faces contribute nothing
  let bW : Fin nx → Fin ny → Fin nz → ℚ := fun i j k =>
    if (i : ℕ) = 0 ∧ phi.bndW_typ j k = BCType.dirichlet then
      mu i j k * dy j * dz k / (dx i / 2)
    else 0
  let bE : Fin nx → Fin ny → Fin nz → ℚ := fun i j k =>
    if (i : ℕ) = nx - 1 ∧ phi.bndE_typ j k = BCType.dirichlet then
      mu i j k * dy j * dz k / (dx i / 2)
    else 0
  let bS : Fin nx → Fin ny → Fin nz → ℚ := fun i j k =>
    if (j : ℕ) = 0 ∧ phi.bndS_typ i k = BCType.dirichlet then
      mu i j k * dx i * dz k / (dy j / 2)
    else 0
  let bN : Fin nx → Fin ny → Fin nz → ℚ := fun i j k =>
    if (j : ℕ) = ny - 1 ∧ phi.bndN_typ i k = BCType.dirichlet then
      mu i j k * dx i * dz k / (dy j / 2)
    else 0
  let bB : Fin nx → Fin ny → Fin nz → ℚ := fun i j k =>
    if (k : ℕ) = 0 ∧ phi.bndB_typ i j = BCType.dirichlet then
      mu i j k * dx i * dy j / (dz k / 2)
    else 0
  let bT : Fin nx → Fin ny → Fin nz → ℚ := fun i j k =>
    if (k : ℕ) = nz - 1 ∧ phi.bndT_typ i j = BCType.dirichlet then
      mu i j k * dx i * dy j / (dz k / 2)
    else 0
  let diag : Fin nx → Fin ny → Fin nz → ℚ := fun i j k =>
    aE i j k + aW i j k + aN i j k + aS i j k + aT i j k + aB i j k +
    bW i j k + bE i j k + bS i j k + bN i j k + bB i j k + bT i j k
  let A : Idx3 nx ny nz → Idx3 nx ny nz → ℚ := fun P Q =>
    let i := P.1; let j := P.2.1; let k := P.2.2
    if obst i j k ≠ 0 then (if Q = P then 1 else 0)
    else if Q = P then diag i j k
    else if (Q.1 : ℕ) = (i : ℕ) + 1 ∧ Q.2.1 = j ∧ Q.2.2 = k then -aE i j k
    else if (Q.1 : ℕ) + 1 = (i : ℕ) ∧ Q.2.1 = j ∧ Q.2.2 = k then -aW i j k
    else if Q.1 = i ∧ (Q.2.1 : ℕ) = (j : ℕ) + 1 ∧ Q.2.2 = k then -aN i j k
    else if Q.1 = i ∧ (Q.2.1 : ℕ) + 1 = (j : ℕ) ∧ Q.2.2 = k then -aS i j k
    else if Q.1 = i ∧ Q.2.1 = j ∧ (Q.2.2 : ℕ) = (k : ℕ) + 1 then -aT i j k
    else if Q.1 = i ∧ Q.2.1 = j ∧ (Q.2.2 : ℕ) + 1 = (k : ℕ) then -aB i j k
    else 0
  let b : Arr3 nx ny nz := fun i j k =>
    if obst i j k ≠ 0 then 0
    else
      inn i j k * (dx i * dy j * dz k) +
      bW i j k * phi.bndW_val j k + bE i j k * phi.bndE_val j k +
      bS i j k * phi.bndS_val i k + bN i j k * phi.bndN_val i k +
      bB i j k * phi.bndB_val i j + bT i j k * phi.bndT_val i j
  (A, b)

/-- Dot product of two flattened 3-D arrays. -/
def dot3 (a b : Arr3 nx ny nz) : ℚ := ∑ i, ∑ j, ∑ k, a i j k * b i j k

/-- Squared Euclidean norm of a flattened 3-D array. -/
def normSq3 (a : Arr3 nx ny nz) : ℚ := dot3 a a

/-- Sparse-matrix/vector product over the flattened index space. -/
def matvec (A : Idx3 nx ny nz → Idx3 nx ny nz → ℚ) (x : Arr3 nx ny nz) :
    Arr3 nx ny nz :=
  fun i j k => ∑ P : Idx3 nx ny nz, A (i, j, k) P * x P.1 P.2.1 P.2.2

/-- Iteration state of the stabilized bi-conjugate-gradient method. -/
structure BiState (nx ny nz : ℕ) where
  x    : Arr3 nx ny nz
  r    : Arr3 nx ny nz
  p    : Arr3 nx ny nz
  v    : Arr3 nx ny nz
  rho  : ℚ
  alph : ℚ
  omg  : ℚ
  iter : ℕ

/-- One BiCGSTAB iteration (standard unpreconditioned recurrences);
rational division is total with `x / 0 = 0`, which stands in for the
solver's breakdown handling. -/
def bicgstabStep (A : Idx3 nx ny nz → Idx3 nx ny nz → ℚ) (rhat : Arr3 nx ny nz)
    (st : BiState nx ny nz) : BiState nx ny nz :=
  let rho1 := dot3 rhat st.r
  let beta := (rho1 / st.rho) * (st.alph / st.omg)
  let pN : Arr3 nx ny nz := fun i j k =>
    st.r i j k + beta * (st.p i j k - st.omg * st.v i j k)
  let vN := matvec A pN
  let alphN := rho1 / dot3 rhat vN
  let s : Arr3 nx ny nz := fun i j k => st.r i j k - alphN * vN i j k
  let t := matvec A s
  let omgN := dot3 t s / normSq3 t
  let xN : Arr3 nx ny nz := fun i j k =>
    st.x i j k + alphN * pN i j k + omgN * s i j k
  let rN : Arr3 nx ny nz := fun i j k => s i j k - omgN * t i j k
  ⟨xN, rN, pN, vN, rho1, alphN, omgN, st.iter + 1⟩

/-- Fuel-bounded BiCGSTAB loop.  At each iteration the relative
residual test `‖r‖ ≤ tol·‖b‖` (squared, to stay in exact arithmetic) is
checked first; on convergence the report is `0`, and when the iteration
cap is exhausted the report is the number of iterations performed, so
non-convergence is surfaced, never swallowed. -/
def bicgstabLoop (A : Idx3 nx ny nz → Idx3 nx ny nz → ℚ) (rhat b : Arr3 nx ny nz)
    (tol : ℚ) : ℕ → BiState nx ny nz → Arr3 nx ny nz × ℕ
  | 0, st => (st.x, st.iter)
  | f + 1, st =>
      if normSq3 st.r ≤ tol ^ 2 * normSq3 b then (st.x, 0)
      else bicgstabLoop A rhat b tol f (bicgstabStep A rhat st)

/-- Model of `scipy.sparse.linalg.bicgstab` (external library): starts
from the zero initial guess, returns the iterate together with an
integer report (`0` on convergence, otherwise the iteration count), and
returns the right-hand side itself immediately when it is identically
zero, mirroring the library's zero-norm shortcut. -/
def bicgstab (tol : ℚ) (maxiter : ℕ) (A : Idx3 nx ny nz → Idx3 nx ny nz → ℚ)
    (b : Arr3 nx ny nz) : Arr3 nx ny nz × ℕ :=
  if normSq3 b = 0 then (b, 0)
  else
    let x0 : Arr3 nx ny nz := zeroArr
    let r0 : Arr3 nx ny nz := fun i j k => b i j k - matvec A x0 i j k
    bicgstabLoop A r0 b tol maxiter ⟨x0, r0, zeroArr, zeroArr, 1, 1, 1, 0⟩

/-- Modelled from the spec: the solver tolerance constant `TOL` from
the missing `Constants` module ("a fixed relative/absolute tolerance"). -/
def TOL : ℚ := 1 / 10 ^ 12

/-- Deterministic iteration cap of the iterative solver, positive on
every grid. -/
def maxiterOf (nx ny nz : ℕ) : ℕ := 10 * (nx * ny * nz) + 10

/-- Diagnostics printed by `calc_p`: the pre-correction maximum volume
error, the pre-correction net imbalance, and the solver report
`res[1]`. -/
structure PDiag where
  maxVolErr  : ℚ
  netImb     : ℚ
  solverInfo : ℕ
deriving DecidableEq

/-- Literal translation of `calc_p` from
`src/PYTHON/Discretization/calc_p.py`, generalized over the linear
solver so that every solver outcome (convergent or not) can be
examined; the concrete program instantiates it with `bicgstab`.  The
comments quote the Python statements in order. -/
def calc_p_gen
    (solver : (Idx3 nx ny nz → Idx3 nx ny nz → ℚ) → Arr3 nx ny nz →
      Arr3 nx ny nz × ℕ)
    (p : Unknown nx ny nz) (uf : Unknown (nx - 1) ny nz)
    (vf : Unknown nx (ny - 1) nz) (wf : Unknown nx ny (nz - 1))
    (rho : Arr3 nx ny nz) (dt : ℚ) (dx : Fin nx → ℚ) (dy : Fin ny → ℚ)
    (dz : Fin nz → ℚ) (obst : Arr3 nx ny nz) : Unknown nx ny nz × PDiag :=
  -- A_p, b_p = create_matrix(p, zeros(rc), dt/rho, dxyz, obst, 'n')
  let Ab := create_matrix p zeroArr (fun i j k => dt / rho i j k) dx dy dz obst
    DiscMode.poisson
  -- b_p = vol_balance(uvwf, dxyz, zeros(rc))
  -- (overwrites the RHS returned by create_matrix; the obstacle mask is
  -- deliberately not passed here)
  let b_p := vol_balance uf vf wf dx dy dz zeroArr
  -- print('Maximum volume error before correction: ...' % abs(b_p).max())
  let maxErr := maxAbs3 b_p
  -- print('Volume imbalance before correction    : ...' % b_p.sum())
  let imb := sum3 b_p
  -- res = bicgstab(A_p, reshape(b_p, prod(rc)), tol=TOL)
  let res := solver Ab.1 b_p
  -- p.val[:] = reshape(res[0], rc)
  let p1 := { p with val := res.1 }
  -- p.val[:] = p.val[:] - p.val.mean()
  let p2 := { p1 with val := anchor p1.val }
  -- if obst.any() != 0: p.val[:] = obst_zero_val(p.pos, p.val, obst)
  let p3 :=
    if any3 obst then { p2 with val := obst_zero_val p2.pos p2.val obst } else p2
  -- p = adj_n_bnds(p);  print("res[1] = ", res[1])
  (adj_n_bnds p3, ⟨maxErr, imb, res.2⟩)

/-- The program's `calc_p`: `calc_p_gen` instantiated with the
`bicgstab` solver at tolerance `TOL`. -/
def calc_p (p : Unknown nx ny nz) (uf : Unknown (nx - 1) ny nz)
    (vf : Unknown nx (ny - 1) nz) (wf : Unknown nx ny (nz - 1))
    (rho : Arr3 nx ny nz) (dt : ℚ) (dx : Fin nx → ℚ) (dy : Fin ny → ℚ)
    (dz : Fin nz → ℚ) (obst : Arr3 nx ny nz) : Unknown nx ny nz × PDiag :=
  calc_p_gen (bicgstab TOL (maxiterOf nx ny nz)) p uf vf wf rho dt dx dy dz obst

/-- Phase 1 of `calc_p`: assemble the Poisson operator via
`create_matrix` in pressure mode with a zero explicit source (its
returned right-hand side is dropped by the `.1` projection) and compute
the source via `vol_balance` with an all-zero mask. -/
def assemblePhase (p : Unknown nx ny nz) (uf : Unknown (nx - 1) ny nz)
    (vf : Unknown nx (ny - 1) nz) (wf : Unknown nx ny (nz - 1))
    (rho : Arr3 nx ny nz) (dt : ℚ) (dx : Fin nx → ℚ) (dy : Fin ny → ℚ)
    (dz : Fin nz → ℚ) (obst : Arr3 nx ny nz) :
    (Idx3 nx ny nz → Idx3 nx ny nz → ℚ) × Arr3 nx ny nz :=
  ((create_matrix p zeroArr (fun i j k => dt / rho i j k) dx dy dz obst
      DiscMode.poisson).1,
   vol_balance uf vf wf dx dy dz zeroArr)

/-- Phase 2 of `calc_p`: solve the assembled linear system. -/
def solvePhase
    (solver : (Idx3 nx ny nz → Idx3 nx ny nz → ℚ) → Arr3 nx ny nz →
      Arr3 nx ny nz × ℕ)
    (Ab : (Idx3 nx ny nz → Idx3 nx ny nz → ℚ) × Arr3 nx ny nz) :
    Arr3 nx ny nz × ℕ :=
  solver Ab.1 Ab.2

/-- Write-back of the solved iterate into the pressure field's value
array. -/
def writeSol (p : Unknown nx ny nz) (x : Arr3 nx ny nz) : Unknown nx ny nz :=
  { p with val := x }

/-- Phase 3 of `calc_p`: anchor the field by subtracting its spatial
mean. -/
def anchorPhase (p : Unknown nx ny nz) : Unknown nx ny nz :=
  { p with val := anchor p.val }

/-- First half of phase 4 of `calc_p`: force solid-obstacle cells to
zero (guarded by `obst.any() != 0` as in the source). -/
def maskPhase (p : Unknown nx ny nz) (obst : Arr3 nx ny nz) : Unknown nx ny nz :=
  if any3 obst then { p with val := obst_zero_val p.pos p.val obst } else p

/-- Second half of phase 4 of `calc_p`: reapply the zero-normal-gradient
Neumann boundary closure. -/
def closePhase (p : Unknown nx ny nz) : Unknown nx ny nz := adj_n_bnds p

/-- The `calc_p` pipeline written as an explicit function of the
assembled operator and of the divergence source, exposing which data
the solve actually consumes. -/
def calcPressureFrom
    (solver : (Idx3 nx ny nz → Idx3 nx ny nz → ℚ) → Arr3 nx ny nz →
      Arr3 nx ny nz × ℕ)
    (A : Idx3 nx ny nz → Idx3 nx ny nz → ℚ) (b : Arr3 nx ny nz)
    (p : Unknown nx ny nz) (obst : Arr3 nx ny nz) : Unknown nx ny nz × PDiag :=
  (closePhase (maskPhase (anchorPhase (writeSol p (solver A b).1)) obst),
   ⟨maxAbs3 b, sum3 b, (solver A b).2⟩)

/-- Modelled from the spec: `corr_uvw` for the cell-centered velocity
triple (source file missing from src/) — "subtracts a pressure-gradient
term (scaled by ∆t/ρ and the appropriate face or cell spacing) from
each velocity component".  The cell-centered gradient is the central
difference of the pressure, padded with the pressure boundary slabs at
the domain boundary, over the distance between the two sample points. -/
def corr_uvw_c (uc vc wc : Unknown nx ny nz) (p : Unknown nx ny nz)
    (rho : Arr3 nx ny nz) (dt : ℚ) (dx : Fin nx → ℚ) (dy : Fin ny → ℚ)
    (dz : Fin nz → ℚ) (_obst : Arr3 nx ny nz) :
    Unknown nx ny nz × Unknown nx ny nz × Unknown nx ny nz :=
  let gradX : Arr3 nx ny nz := fun i j k =>
    let pE : ℚ :=
      if h : (i : ℕ) + 1 < nx then p.val ⟨(i : ℕ) + 1, h⟩ j k else p.bndE_val j k
    let pW : ℚ :=
      if h : 0 < (i : ℕ) then
        p.val ⟨(i : ℕ) - 1, by have := i.isLt; omega⟩ j k
      else p.bndW_val j k
    let hE : ℚ :=
      if h : (i : ℕ) + 1 < nx then (dx i + dx ⟨(i : ℕ) + 1, h⟩) / 2 else dx i / 2
    let hW : ℚ :=
      if h : 0 < (i : ℕ) then
        (dx i + dx ⟨(i : ℕ) - 1, by have := i.isLt; omega⟩) / 2
      else dx i / 2
    (pE - pW) / (hW + hE)
  let gradY : Arr3 nx ny nz := fun i j k =>
    let pN : ℚ :=
      if h : (j : ℕ) + 1 < ny then p.val i ⟨(j : ℕ) + 1, h⟩ k else p.bndN_val i k
    let pS : ℚ :=
      if h : 0 < (j : ℕ) then
        p.val i ⟨(j : ℕ) - 1, by have := j.isLt; omega⟩ k
      else p.bndS_val i k
    let hN : ℚ :=
      if h : (j : ℕ) + 1 < ny then (dy j + dy ⟨(j : ℕ) + 1, h⟩) / 2 else dy j / 2
    let hS : ℚ :=
      if h : 0 < (j : ℕ) then
        (dy j + dy ⟨(j : ℕ) - 1, by have := j.isLt; omega⟩) / 2
      else dy j / 2
    (pN - pS) / (hS + hN)
  let gradZ : Arr3 nx ny nz := fun i j k =>
    let pT : ℚ :=
      if h : (k : ℕ) + 1 < nz then p.val i j ⟨(k : ℕ) + 1, h⟩ else p.bndT_val i j
    let pB : ℚ :=
      if h : 0 < (k : ℕ) then
        p.val i j ⟨(k : ℕ) - 1, by have := k.isLt; omega⟩
      else p.bndB_val i j
    let hT : ℚ :=
      if h : (k : ℕ) + 1 < nz then (dz k + dz ⟨(k : ℕ) + 1, h⟩) / 2 else dz k / 2
    let hB : ℚ :=
      if h : 0 < (k : ℕ) then
        (dz k + dz ⟨(k : ℕ) - 1, by have := k.isLt; omega⟩) / 2
      else dz k / 2
    (pT - pB) / (hB + hT)
  ({ uc with val := fun i j k => uc.val i j k - dt / rho i j k * gradX i j k },
   { vc with val := fun i j k => vc.val i j k - dt / rho i j k * gradY i j k },
   { wc with val := fun i j k => wc.val i j k - dt / rho i j k * gradZ i j k })

/-- Modelled from the spec: `corr_uvw` for the staggered face-velocity
triple (source file missing from src/) — the face-normal correction
subtracts ∆t over the face-averaged density times the neighboring
pressure difference over the center distance; interior faces only, as
the staggered arrays own only interior faces. -/
def corr_uvw_f (uf : Unknown (nx - 1) ny nz) (vf : Unknown nx (ny - 1) nz)
    (wf : Unknown nx ny (nz - 1)) (p : Unknown nx ny nz) (rho : Arr3 nx ny nz)
    (dt : ℚ) (dx : Fin nx → ℚ) (dy : Fin ny → ℚ) (dz : Fin nz → ℚ)
    (_obst : Arr3 nx ny nz) :
    Unknown (nx - 1) ny nz × Unknown nx (ny - 1) nz × Unknown nx ny (nz - 1) :=
  let ufv : Arr3 (nx - 1) ny nz := fun i j k =>
    let iL : Fin nx := ⟨i, by have := i.isLt; omega⟩
    let iR : Fin nx := ⟨(i : ℕ) + 1, by have := i.isLt; omega⟩
    uf.val i j k -
      dt / ((rho iL j k + rho iR j k) / 2) *
        (p.val iR j k - p.val iL j k) / ((dx iL + dx iR) / 2)
  let vfv : Arr3 nx (ny - 1) nz := fun i j k =>
    let jL : Fin ny := ⟨j, by have := j.isLt; omega⟩
    let jR : Fin ny := ⟨(j : ℕ) + 1, by have := j.isLt; omega⟩
    vf.val i j k -
      dt / ((rho i jL k + rho i jR k) / 2) *
        (p.val i jR k - p.val i jL k) / ((dy jL + dy jR) / 2)
  let wfv : Arr3 nx ny (nz - 1) := fun i j k =>
    let kL : Fin nz := ⟨k, by have := k.isLt; omega⟩
    let kR : Fin nz := ⟨(k : ℕ) + 1, by have := k.isLt; omega⟩
    wf.val i j k -
      dt / ((rho i j kL + rho i j kR) / 2) *
        (p.val i j kR - p.val i j kL) / ((dz kL + dz kR) / 2)
  ({ uf with val := ufv }, { vf with val := vfv }, { wf with val := wfv })

/-- One-sided/central pressure-gradient of a plain cell array along x,
with edge replication at the domain boundary (used for the accumulated
explicit pressure `p_tot`, a plain array without boundary slabs). -/
def gradX3 (a : Arr3 nx ny nz) (dx : Fin nx → ℚ) : Arr3 nx ny nz :=
  fun i j k =>
    let aE : ℚ := if h : (i : ℕ) + 1 < nx then a ⟨(i : ℕ) + 1, h⟩ j k else a i j k
    let aW : ℚ :=
      if h : 0 < (i : ℕ) then a ⟨(i : ℕ) - 1, by have := i.isLt; omega⟩ j k
      else a i j k
    let hE : ℚ :=
      if h : (i : ℕ) + 1 < nx then (dx i + dx ⟨(i : ℕ) + 1, h⟩) / 2 else 0
    let hW : ℚ :=
      if h : 0 < (i : ℕ) then
        (dx i + dx ⟨(i : ℕ) - 1, by have := i.isLt; omega⟩) / 2
      else 0
    (aE - aW) / (hW + hE)

/-- Gradient of a plain cell array along y with edge replication. -/
def gradY3 (a : Arr3 nx ny nz) (dy : Fin ny → ℚ) : Arr3 nx ny nz :=
  fun i j k =>
    let aN : ℚ := if h : (j : ℕ) + 1 < ny then a i ⟨(j : ℕ) + 1, h⟩ k else a i j k
    let aS : ℚ :=
      if h : 0 < (j : ℕ) then a i ⟨(j : ℕ) - 1, by have := j.isLt; omega⟩ k
      else a i j k
    let hN : ℚ :=
      if h : (j : ℕ) + 1 < ny then (dy j + dy ⟨(j : ℕ) + 1, h⟩) / 2 else 0
    let hS : ℚ :=
      if h : 0 < (j : ℕ) then
        (dy j + dy ⟨(j : ℕ) - 1, by have := j.isLt; omega⟩) / 2
      else 0
    (aN - aS) / (hS + hN)

/-- Gradient of a plain cell array along z with edge replication. -/
def gradZ3 (a : Arr3 nx ny nz) (dz : Fin nz → ℚ) : Arr3 nx ny nz :=
  fun i j k =>
    let aT : ℚ := if h : (k : ℕ) + 1 < nz then a i j ⟨(k : ℕ) + 1, h⟩ else a i j k
    let aB : ℚ :=
      if h : 0 < (k : ℕ) then a i j ⟨(k : ℕ) - 1, by have := k.isLt; omega⟩
      else a i j k
    let hT : ℚ :=
      if h : (k : ℕ) + 1 < nz then (dz k + dz ⟨(k : ℕ) + 1, h⟩) / 2 else 0
    let hB : ℚ :=
      if h : 0 < (k : ℕ) then
        (dz k + dz ⟨(k : ℕ) - 1, by have := k.isLt; omega⟩) / 2
      else 0
    (aT - aB) / (hB + hT)

/-- Modelled from the spec: `calc_t` (source file missing from src/) —
"assemble a convection-diffusion operator via 4.2 in full mode ...
an explicit source term ... and solve the resulting linear system with
the same iterative solver".  The explicit source carries the old-value
time term; the face velocities are the (read-only) convecting fields,
which the modelled `create_matrix` cannot consume (see its comment), so
they are accepted and left untouched.  Only the value array of the
transported field is written. -/
def calc_t (t : Unknown nx ny nz) (_uf : Unknown (nx - 1) ny nz)
    (_vf : Unknown nx (ny - 1) nz) (_wf : Unknown nx ny (nz - 1))
    (rhocap : Arr3 nx ny nz) (kappa : Arr3 nx ny nz) (dt : ℚ)
    (dx : Fin nx → ℚ) (dy : Fin ny → ℚ) (dz : Fin nz → ℚ)
    (obst : Arr3 nx ny nz) : Unknown nx ny nz :=
  let src : Arr3 nx ny nz := fun i j k => rhocap i j k * t.old i j k / dt
  let Ab := create_matrix t src kappa dx dy dz obst DiscMode.fullStencil
  let res := bicgstab TOL (maxiterOf nx ny nz) Ab.1 Ab.2
  { t with val := res.1 }

/-- Modelled from the spec: `calc_uvw` (source file missing from src/)
— "for each velocity component ... assemble a convection-diffusion
operator via 4.2 in full mode ..., an explicit source term combining
buoyancy/body-force contributions and the previous pressure-gradient
term, and solve the resulting linear system ... Each component is
solved independently".  Writes only the value arrays of the three
cell-centered components. -/
def calc_uvw (uc vc wc : Unknown nx ny nz) (_uf : Unknown (nx - 1) ny nz)
    (_vf : Unknown nx (ny - 1) nz) (_wf : Unknown nx ny (nz - 1))
    (rho mu : Arr3 nx ny nz) (ptot : Arr3 nx ny nz)
    (ef : Arr3 nx ny nz × Arr3 nx ny nz × Arr3 nx ny nz) (dt : ℚ)
    (dx : Fin nx → ℚ) (dy : Fin ny → ℚ) (dz : Fin nz → ℚ)
    (obst : Arr3 nx ny nz) :
    Unknown nx ny nz × Unknown nx ny nz × Unknown nx ny nz :=
  let srcU : Arr3 nx ny nz := fun i j k =>
    rho i j k * uc.old i j k / dt + ef.1 i j k - gradX3 ptot dx i j k
  let srcV : Arr3 nx ny nz := fun i j k =>
    rho i j k * vc.old i j k / dt + ef.2.1 i j k - gradY3 ptot dy i j k
  let srcW : Arr3 nx ny nz := fun i j k =>
    rho i j k * wc.old i j k / dt + ef.2.2 i j k - gradZ3 ptot dz i j k
  let AbU := create_matrix uc srcU mu dx dy dz obst DiscMode.fullStencil
  let AbV := create_matrix vc srcV mu dx dy dz obst DiscMode.fullStencil
  let AbW := create_matrix wc srcW mu dx dy dz obst DiscMode.fullStencil
  let rU := bicgstab TOL (maxiterOf nx ny nz) AbU.1 AbU.2
  let rV := bicgstab TOL (maxiterOf nx ny nz) AbV.1 AbV.2
  let rW := bicgstab TOL (maxiterOf nx ny nz) AbW.1 AbW.2
  ({ uc with val := rU.1 }, { vc with val := rV.1 }, { wc with val := rW.1 })

/-- Modelled from the spec: `cfl_max` (source file missing from src/) —
the CFL number, the "ratio of time step to the time for fluid to cross
one cell", maximized over all cells and summed over the three axes. -/
def cfl_max (uc vc wc : Unknown nx ny nz) (dt : ℚ) (dx : Fin nx → ℚ)
    (dy : Fin ny → ℚ) (dz : Fin nz → ℚ) : ℚ :=
  maxAbs3 (fun i j k =>
    dt * (|uc.val i j k| / dx i + |vc.val i j k| / dy j + |wc.val i j k| / dz k))

/-- Full simulation state of the collocated drivers: temperature, the
three cell-centered velocity components, pressure, and the three
staggered face velocities. -/
structure SimState (nx ny nz : ℕ) where
  t  : Unknown nx ny nz
  uc : Unknown nx ny nz
  vc : Unknown nx ny nz
  wc : Unknown nx ny nz
  p  : Unknown nx ny nz
  uf : Unknown (nx - 1) ny nz
  vf : Unknown nx (ny - 1) nz
  wf : Unknown nx ny (nz - 1)

/-- Physical properties, time step, grid spacings and obstacle mask of
a driver run; fixed at setup and shared by reference across all
phases. -/
structure SimParams (nx ny nz : ℕ) where
  rho   : Arr3 nx ny nz
  mu    : Arr3 nx ny nz
  kappa : Arr3 nx ny nz
  cap   : Arr3 nx ny nz
  dt    : ℚ
  dx    : Fin nx → ℚ
  dy    : Fin ny → ℚ
  dz    : Fin nz → ℚ
  obst  : Arr3 nx ny nz

/-- Per-step diagnostics printed by the drivers: the post-correction
volume-balance array (the `err` variable, computed with the actual
obstacle mask), its maximum absolute value, the CFL number, and the
diagnostics of the pressure solve. -/
structure StepDiag (nx ny nz : ℕ) where
  errArr    : Arr3 nx ny nz
  maxVolErr : ℚ
  cfl       : ℚ
  pdiag     : PDiag

/-- Literal translation of one iteration of the time loop of
`src/PYTHON/test-thermal-plumes-collocated.py` (the thermally driven
cavity driver is identical except that it accumulates a total pressure
for the explicit momentum source).  The comments quote the Python
statements in order. -/
def timeStep (pr : SimParams nx ny nz) (s : SimState nx ny nz) :
    SimState nx ny nz × StepDiag nx ny nz :=
  -- t.old[:] = t.val[:]; uc.old[:] = uc.val[:]; vc.old[:] = vc.val[:]; wc.old[:] = wc.val[:]
  let t0 := { s.t with old := s.t.val }
  let uc0 := { s.uc with old := s.uc.val }
  let vc0 := { s.vc with old := s.vc.val }
  let wc0 := { s.wc with old := s.wc.val }
  -- calc_t(t, (uf,vf,wf), (rho*cap), kappa, dt, (dx,dy,dz), obst)
  let t1 := calc_t t0 s.uf s.vf s.wf (fun i j k => pr.rho i j k * pr.cap i j k)
    pr.kappa pr.dt pr.dx pr.dy pr.dz pr.obst
  -- ef = zeros(rc), 150.0 * t.val, zeros(rc)
  let ef : Arr3 nx ny nz × Arr3 nx ny nz × Arr3 nx ny nz :=
    (zeroArr, fun i j k => 150 * t1.val i j k, zeroArr)
  -- calc_uvw((uc,vc,wc), (uf,vf,wf), rho, mu, zeros(rc), ef, dt, (dx,dy,dz), obst)
  let uvw1 := calc_uvw uc0 vc0 wc0 s.uf s.vf s.wf pr.rho pr.mu zeroArr ef pr.dt
    pr.dx pr.dy pr.dz pr.obst
  -- calc_p(p, (uf,vf,wf), rho, dt, (dx,dy,dz), obst)
  let pres := calc_p s.p s.uf s.vf s.wf pr.rho pr.dt pr.dx pr.dy pr.dz pr.obst
  -- corr_uvw((uc,vc,wc), p, rho, dt, (dx,dy,dz), obst)
  let uvw2 := corr_uvw_c uvw1.1 uvw1.2.1 uvw1.2.2 pres.1 pr.rho pr.dt pr.dx
    pr.dy pr.dz pr.obst
  -- corr_uvw((uf,vf,wf), p, rho, dt, (dx,dy,dz), obst)
  let fvw2 := corr_uvw_f s.uf s.vf s.wf pres.1 pr.rho pr.dt pr.dx pr.dy pr.dz
    pr.obst
  -- err = vol_balance((uf,vf,wf), (dx,dy,dz), obst)
  let err := vol_balance fvw2.1 fvw2.2.1 fvw2.2.2 pr.dx pr.dy pr.dz pr.obst
  -- cfl = cfl_max((uc,vc,wc), dt, (dx,dy,dz))
  let cfl := cfl_max uvw2.1 uvw2.2.1 uvw2.2.2 pr.dt pr.dx pr.dy pr.dz
  (⟨t1, uvw2.1, uvw2.2.1, uvw2.2.2, pres.1, fvw2.1, fvw2.2.1, fvw2.2.2⟩,
   ⟨err, maxAbs3 err, cfl, pres.2⟩)

/-- Phase: store old field values (temperature and the cell-centered
velocity components only). -/
def phStoreOld (s : SimState nx ny nz) : SimState nx ny nz :=
  { s with
    t := { s.t with old := s.t.val }
    uc := { s.uc with old := s.uc.val }
    vc := { s.vc with old := s.vc.val }
    wc := { s.wc with old := s.wc.val } }

/-- Phase: transport the scalar (temperature). -/
def phCalcT (pr : SimParams nx ny nz) (s : SimState nx ny nz) : SimState nx ny nz :=
  { s with
    t := calc_t s.t s.uf s.vf s.wf
      (fun i j k => pr.rho i j k * pr.cap i j k) pr.kappa pr.dt pr.dx pr.dy
      pr.dz pr.obst }

/-- Phase: transport momentum (with the buoyancy source built from the
freshly transported temperature). -/
def phCalcUVW (pr : SimParams nx ny nz) (s : SimState nx ny nz) : SimState nx ny nz :=
  let ef : Arr3 nx ny nz × Arr3 nx ny nz × Arr3 nx ny nz :=
    (zeroArr, fun i j k => 150 * s.t.val i j k, zeroArr)
  let r := calc_uvw s.uc s.vc s.wc s.uf s.vf s.wf pr.rho pr.mu zeroArr ef pr.dt
    pr.dx pr.dy pr.dz pr.obst
  { s with uc := r.1, vc := r.2.1, wc := r.2.2 }

/-- Phase: assemble and solve the pressure correction. -/
def phCalcP (pr : SimParams nx ny nz) (s : SimState nx ny nz) :
    SimState nx ny nz × PDiag :=
  let r := calc_p s.p s.uf s.vf s.wf pr.rho pr.dt pr.dx pr.dy pr.dz pr.obst
  ({ s with p := r.1 }, r.2)

/-- Phase: correct the cell-centered velocities. -/
def phCorrCells (pr : SimParams nx ny nz) (s : SimState nx ny nz) : SimState nx ny nz :=
  let r := corr_uvw_c s.uc s.vc s.wc s.p pr.rho pr.dt pr.dx pr.dy pr.dz pr.obst
  { s with uc := r.1, vc := r.2.1, wc := r.2.2 }

/-- Phase: correct the face-centered velocities. -/
def phCorrFaces (pr : SimParams nx ny nz) (s : SimState nx ny nz) : SimState nx ny nz :=
  let r := corr_uvw_f s.uf s.vf s.wf s.p pr.rho pr.dt pr.dx pr.dy pr.dz pr.obst
  { s with uf := r.1, vf := r.2.1, wf := r.2.2 }

/-- Phase: recompute the volume-balance divergence as a diagnostic,
with the actual obstacle mask. -/
def phDiagErr (pr : SimParams nx ny nz) (s : SimState nx ny nz) : Arr3 nx ny nz :=
  vol_balance s.uf s.vf s.wf pr.dx pr.dy pr.dz pr.obst

/-- Phase: recompute the CFL number as a diagnostic. -/
def phCfl (pr : SimParams nx ny nz) (s : SimState nx ny nz) : ℚ :=
  cfl_max s.uc s.vc s.wc pr.dt pr.dx pr.dy pr.dz

/-- The whole time loop: iterate the time step from a starting state. -/
def runSteps (pr : SimParams nx ny nz) : ℕ → SimState nx ny nz → SimState nx ny nz
  | 0, s => s
  | n + 1, s => runSteps pr n (timeStep pr s).1

/-- Neighbor averaging along x, cell array to x-face array (the
operator `avg(X, ...)`). -/
def avgX (a : Arr3 nx ny nz) : Arr3 (nx - 1) ny nz := fun i j k =>
  (a ⟨i, by have := i.isLt; omega⟩ j k +
   a ⟨(i : ℕ) + 1, by have := i.isLt; omega⟩ j k) / 2

/-- Neighbor averaging along y, cell array to y-face array. -/
def avgY (a : Arr3 nx ny nz) : Arr3 nx (ny - 1) nz := fun i j k =>
  (a i ⟨j, by have := j.isLt; omega⟩ k +
   a i ⟨(j : ℕ) + 1, by have := j.isLt; omega⟩ k) / 2

/-- Neighbor averaging along z, cell array to z-face array. -/
def avgZ (a : Arr3 nx ny nz) : Arr3 nx ny (nz - 1) := fun i j k =>
  (a i j ⟨k, by have := k.isLt; omega⟩ +
   a i j ⟨(k : ℕ) + 1, by have := k.isLt; omega⟩) / 2

/-- Neighbor averaging of a 2-D boundary slab along its first index. -/
def avgFst {n m : ℕ} (a : Fin n → Fin m → ℚ) : Fin (n - 1) → Fin m → ℚ :=
  fun i j =>
    (a ⟨i, by have := i.isLt; omega⟩ j +
     a ⟨(i : ℕ) + 1, by have := i.isLt; omega⟩ j) / 2

/-- Neighbor averaging of a 2-D boundary slab along its second index. -/
def avgSnd {n m : ℕ} (a : Fin n → Fin m → ℚ) : Fin n → Fin (m - 1) → ℚ :=
  fun i j =>
    (a i ⟨j, by have := j.isLt; omega⟩ +
     a i ⟨(j : ℕ) + 1, by have := j.isLt; omega⟩) / 2

/-- Setup of `src/PYTHON/test-thermal-plumes-collocated.py`: unknowns
created with `create_unknown`, boundary kinds and values overridden as
in the script, initial `uc.val = 1`, face velocities interpolated from
the cell velocities and their boundary slabs copied/averaged.  The
inflow velocity profile (`par(1.0, yn)`) and the west temperature
profile (`1.0 - yc`) come from external grid geometry and are passed in
as parameters. -/
def initState (nx ny nz : ℕ) (inflow : Fin ny → Fin nz → ℚ)
    (tWest : Fin ny → Fin nz → ℚ) : SimState nx ny nz :=
  let uc : Unknown nx ny nz :=
    { create_unknown "cell-u-vel" VarPos.cell nx ny nz BCType.dirichlet with
      val := fun _ _ _ => 1
      bndW_val := inflow
      bndE_typ := fun _ _ => BCType.outlet
      bndE_val := fun _ _ => 1
      bndB_typ := fun _ _ => BCType.neumann
      bndT_typ := fun _ _ => BCType.neumann }
  let vc : Unknown nx ny nz :=
    { create_unknown "cell-v-vel" VarPos.cell nx ny nz BCType.dirichlet with
      bndB_typ := fun _ _ => BCType.neumann
      bndT_typ := fun _ _ => BCType.neumann }
  let wc : Unknown nx ny nz :=
    { create_unknown "cell-w-vel" VarPos.cell nx ny nz BCType.dirichlet with
      bndB_typ := fun _ _ => BCType.neumann
      bndT_typ := fun _ _ => BCType.neumann }
  let t : Unknown nx ny nz :=
    adj_n_bnds
      { create_unknown "temperature" VarPos.cell nx ny nz BCType.neumann with
        bndW_typ := fun _ _ => BCType.dirichlet
        bndW_val := tWest
        bndS_typ := fun _ _ => BCType.dirichlet
        bndS_val := fun _ _ => 1
        bndN_typ := fun _ _ => BCType.dirichlet
        bndN_val := fun _ _ => 0 }
  let p : Unknown nx ny nz :=
    adj_n_bnds (create_unknown "pressure" VarPos.cell nx ny nz BCType.neumann)
  let uf : Unknown (nx - 1) ny nz :=
    { create_unknown "face-u-vel" VarPos.xFace (nx - 1) ny nz BCType.dirichlet with
      val := avgX uc.val
      bndW_val := uc.bndW_val
      bndE_val := uc.bndE_val
      bndS_val := avgFst uc.bndS_val
      bndN_val := avgFst uc.bndN_val
      bndB_val := avgFst uc.bndB_val
      bndT_val := avgFst uc.bndT_val }
  let vf : Unknown nx (ny - 1) nz :=
    { create_unknown "face-v-vel" VarPos.yFace nx (ny - 1) nz BCType.dirichlet with
      val := avgY vc.val
      bndW_val := avgFst vc.bndW_val
      bndE_val := avgFst vc.bndE_val
      bndS_val := vc.bndS_val
      bndN_val := vc.bndN_val
      bndB_val := avgSnd vc.bndB_val
      bndT_val := avgSnd vc.bndT_val }
  let wf : Unknown nx ny (nz - 1) :=
    { create_unknown "face-w-vel" VarPos.zFace nx ny (nz - 1) BCType.dirichlet with
      val := avgZ wc.val
      bndW_val := avgSnd wc.bndW_val
      bndE_val := avgSnd wc.bndE_val
      bndS_val := avgSnd wc.bndS_val
      bndN_val := avgSnd wc.bndN_val
      bndB_val := wc.bndB_val
      bndT_val := wc.bndT_val }
  ⟨t, uc, vc, wc, p, uf, vf, wf⟩

/-- Inputs of one `calc_p` call, bundled to express the frame of the
mutation: the Python call mutates `p` in place and merely reads the
rest. -/
structure PState (nx ny nz : ℕ) where
  p    : Unknown nx ny nz
  uf   : Unknown (nx - 1) ny nz
  vf   : Unknown nx (ny - 1) nz
  wf   : Unknown nx ny (nz - 1)
  rho  : Arr3 nx ny nz
  dt   : ℚ
  dx   : Fin nx → ℚ
  dy   : Fin ny → ℚ
  dz   : Fin nz → ℚ
  obst : Arr3 nx ny nz

/-- The `calc_p` call as a transition on its whole input state: the
pressure field is replaced by the mutated one, every other component is
carried over, and the printed diagnostics are returned alongside. -/
def calc_p_step (s : PState nx ny nz) : PState nx ny nz × PDiag :=
  let r := calc_p s.p s.uf s.vf s.wf s.rho s.dt s.dx s.dy s.dz s.obst
  ({ s with p := r.1 }, r.2)

lemma calc_p_gen_eq
    (solver : (Idx3 nx ny nz → Idx3 nx ny nz → ℚ) → Arr3 nx ny nz →
      Arr3 nx ny nz × ℕ)
    (p : Unknown nx ny nz) (uf : Unknown (nx - 1) ny nz)
    (vf : Unknown nx (ny - 1) nz) (wf : Unknown nx ny (nz - 1))
    (rho : Arr3 nx ny nz) (dt : ℚ) (dx : Fin nx → ℚ) (dy : Fin ny → ℚ)
    (dz : Fin nz → ℚ) (obst : Arr3 nx ny nz) :
    calc_p_gen solver p uf vf wf rho dt dx dy dz obst =
      calcPressureFrom solver
        (create_matrix p zeroArr (fun i j k => dt / rho i j k) dx dy dz obst
          DiscMode.poisson).1
        (vol_balance uf vf wf dx dy dz zeroArr) p obst := rfl

lemma closePhase_val (q : Unknown nx ny nz) : (closePhase q).val = q.val := rfl

lemma maskPhase_val_solid (q : Unknown nx ny nz) (obst : Arr3 nx ny nz)
    (i : Fin nx) (j : Fin ny) (k : Fin nz) (h : obst i j k ≠ 0) :
    (maskPhase q obst).val i j k = 0 := by
  have hany : any3 obst = true := by
    simp only [any3, decide_eq_true_eq]
    exact ⟨i, j, k, h⟩
  unfold maskPhase
  rw [if_pos hany]
  simp [obst_zero_val, h]

/-- The claim `C5`: the zero-mean anchor `x := x - mean(x)` used by
`calc_p` is idempotent — applying it twice equals applying it once,
since after one application the mean is exactly zero in the exact
arithmetic of the embedding. -/
theorem anchor_idempotent (a : Arr3 nx ny nz) : anchor (anchor a) = anchor a := by
  funext i j k
  have hx : 0 < nx := i.pos
  have hy : 0 < ny := j.pos
  have hz : 0 < nz := k.pos
  have hN : ((nx * ny * nz : ℕ) : ℚ) ≠ 0 := by
    have : 0 < nx * ny * nz := by positivity
    exact_mod_cast Nat.cast_ne_zero.mpr (Nat.pos_iff_ne_zero.mp this)
  have hsum : sum3 (anchor a) = sum3 a - ((nx * ny * nz : ℕ) : ℚ) * mean3 a := by
    unfold anchor sum3
    simp only [Finset.sum_sub_distrib, Finset.sum_const, Finset.card_univ,
      Fintype.card_fin, nsmul_eq_mul]
    push_cast
    ring
  have hmean : mean3 (anchor a) = 0 := by
    unfold mean3 at hsum ⊢
    rw [hsum]
    field_simp
  show anchor a i j k - mean3 (anchor a) = anchor a i j k
  rw [hmean, sub_zero]

/-- The claim `C1`: after `calc_p`, every cell flagged solid (nonzero)
in the obstacle mask has pressure value exactly `0`, for every mask,
every grid size and every solver outcome — the zeroing happens after
the iterative solve and is not undone by the boundary closure. -/
theorem calc_p_solid_cells_zero (p : Unknown nx ny nz)
    (uf : Unknown (nx - 1) ny nz) (vf : Unknown nx (ny - 1) nz)
    (wf : Unknown nx ny (nz - 1)) (rho : Arr3 nx ny nz) (dt : ℚ)
    (dx : Fin nx → ℚ) (dy : Fin ny → ℚ) (dz : Fin nz → ℚ)
    (obst : Arr3 nx ny nz) (i : Fin nx) (j : Fin ny) (k : Fin nz)
    (h : obst i j k ≠ 0) :
    ((calc_p p uf vf wf rho dt dx dy dz obst).1).val i j k = 0 := by
  unfold calc_p
  rw [calc_p_gen_eq]
  exact maskPhase_val_solid _ obst i j k h

/-- Concrete 5×5×5 pressure field for evaluation. -/
def pFix : Unknown 5 5 5 := create_unknown "pressure" VarPos.cell 5 5 5 BCType.neumann

/-- Concrete x-face velocity field of the 5×5×5 fixture. -/
def ufFix : Unknown 4 5 5 := create_unknown "face-u-vel" VarPos.xFace 4 5 5 BCType.dirichlet

/-- Concrete y-face velocity field of the 5×5×5 fixture. -/
def vfFix : Unknown 5 4 5 := create_unknown "face-v-vel" VarPos.yFace 5 4 5 BCType.dirichlet

/-- Concrete z-face velocity field of the 5×5×5 fixture. -/
def wfFix : Unknown 5 5 4 := create_unknown "face-w-vel" VarPos.zFace 5 5 4 BCType.dirichlet

/-- Unit density on the 5×5×5 fixture. -/
def oneFix : Arr3 5 5 5 := fun _ _ _ => 1

/-- Uniform spacing on the 5×5×5 fixture. -/
def dxFix : Fin 5 → ℚ := fun _ => 1 / 5

/-- Obstacle mask with a single solid cell at the center (2,2,2) of the
otherwise fluid 5×5×5 domain. -/
def obstFix : Arr3 5 5 5 := fun i j k =>
  if (i : ℕ) = 2 ∧ (j : ℕ) = 2 ∧ (k : ℕ) = 2 then 1 else 0

theorem calc_p_solid_cells_zero_witness :
    obstFix ⟨2, by norm_num⟩ ⟨2, by norm_num⟩ ⟨2, by norm_num⟩ ≠ 0 ∧
    ((calc_p pFix ufFix vfFix wfFix oneFix (1 / 500) dxFix dxFix dxFix
        obstFix).1).val ⟨2, by norm_num⟩ ⟨2, by norm_num⟩ ⟨2, by norm_num⟩ = 0 :=
  ⟨by decide,
   calc_p_solid_cells_zero pFix ufFix vfFix wfFix oneFix (1 / 500) dxFix dxFix
     dxFix obstFix _ _ _ (by decide)⟩

/-- The claim `C3` (amended): `calc_p` treats solver non-convergence
as non-fatal.  For every solver outcome `(x, info)` — in particular a
non-converged one — the call completes, the iterate `x` is written into
the pressure field unconditionally (the output is the anchored, masked
and boundary-closed version of `x`, independent of `info`), and the
solver's convergence report `res[1]` (`0` on convergence, the
iteration count otherwise) is surfaced in the printed diagnostics; the
achieved residual itself is not among the values the code reports. -/
theorem calc_p_nonconvergence_nonfatal
    (solver : (Idx3 nx ny nz → Idx3 nx ny nz → ℚ) → Arr3 nx ny nz →
      Arr3 nx ny nz × ℕ)
    (p : Unknown nx ny nz) (uf : Unknown (nx - 1) ny nz)
    (vf : Unknown nx (ny - 1) nz) (wf : Unknown nx ny (nz - 1))
    (rho : Arr3 nx ny nz) (dt : ℚ) (dx : Fin nx → ℚ) (dy : Fin ny → ℚ)
    (dz : Fin nz → ℚ) (obst : Arr3 nx ny nz) (x : Arr3 nx ny nz) (info : ℕ)
    (h : solver
        (create_matrix p zeroArr (fun i j k => dt / rho i j k) dx dy dz obst
          DiscMode.poisson).1
        (vol_balance uf vf wf dx dy dz zeroArr) = (x, info)) :
    calc_p_gen solver p uf vf wf rho dt dx dy dz obst =
      (closePhase (maskPhase (anchorPhase (writeSol p x)) obst),
       ⟨maxAbs3 (vol_balance uf vf wf dx dy dz zeroArr),
        sum3 (vol_balance uf vf wf dx dy dz zeroArr), info⟩) := by
  rw [calc_p_gen_eq]
  unfold calcPressureFrom
  rw [h]

/-- Concrete 1×1×1 pressure field. -/
def p1Fix : Unknown 1 1 1 := create_unknown "pressure" VarPos.cell 1 1 1 BCType.neumann

/-- Concrete 1×1×1 x-face velocity field (no interior x-faces). -/
def uf1Fix : Unknown 0 1 1 := create_unknown "face-u-vel" VarPos.xFace 0 1 1 BCType.dirichlet

/-- Concrete 1×1×1 y-face velocity field. -/
def vf1Fix : Unknown 1 0 1 := create_unknown "face-v-vel" VarPos.yFace 1 0 1 BCType.dirichlet

/-- Concrete 1×1×1 z-face velocity field. -/
def wf1Fix : Unknown 1 1 0 := create_unknown "face-w-vel" VarPos.zFace 1 1 0 BCType.dirichlet

/-- Unit density on the 1×1×1 fixture. -/
def one1 : Arr3 1 1 1 := fun _ _ _ => 1

/-- Unit spacing on the 1×1×1 fixture. -/
def unit1 : Fin 1 → ℚ := fun _ => 1

/-- A stand-in solver that reports non-convergence after 42 iterations
and hands back an arbitrary iterate. -/
def badSolver : (Idx3 1 1 1 → Idx3 1 1 1 → ℚ) → Arr3 1 1 1 → Arr3 1 1 1 × ℕ :=
  fun _ _ => (fun _ _ _ => 7, 42)

/-- The iterate handed back by `badSolver`. -/
def sevenArr : Arr3 1 1 1 := fun _ _ _ => 7

theorem calc_p_nonconvergence_nonfatal_witness :
    badSolver
        (create_matrix p1Fix zeroArr (fun i j k => 1 / one1 i j k) unit1 unit1
          unit1 zeroArr DiscMode.poisson).1
        (vol_balance uf1Fix vf1Fix wf1Fix unit1 unit1 unit1 zeroArr) =
      (sevenArr, 42) ∧
    calc_p_gen badSolver p1Fix uf1Fix vf1Fix wf1Fix one1 1 unit1 unit1 unit1
        zeroArr =
      (closePhase (maskPhase (anchorPhase (writeSol p1Fix sevenArr)) zeroArr),
       ⟨maxAbs3 (vol_balance uf1Fix vf1Fix wf1Fix unit1 unit1 unit1 zeroArr),
        sum3 (vol_balance uf1Fix vf1Fix wf1Fix unit1 unit1 unit1 zeroArr), 42⟩) :=
  ⟨rfl,
   calc_p_nonconvergence_nonfatal badSolver p1Fix uf1Fix vf1Fix wf1Fix one1 1
     unit1 unit1 unit1 zeroArr sevenArr 42 rfl⟩

/-- The claim `C4`: every `calc_p` call is exactly the four ordered
phases — assemble (`create_matrix` in pressure mode with a zero
explicit source, plus the `vol_balance` source), solve (`bicgstab`),
anchor (subtract the spatial mean), then mask the solid cells and
reapply the Neumann closure, in that order; the call is a pure function
of its arguments, so no state persists across calls. -/
theorem calc_p_four_phase_structure (p : Unknown nx ny nz)
    (uf : Unknown (nx - 1) ny nz) (vf : Unknown nx (ny - 1) nz)
    (wf : Unknown nx ny (nz - 1)) (rho : Arr3 nx ny nz) (dt : ℚ)
    (dx : Fin nx → ℚ) (dy : Fin ny → ℚ) (dz : Fin nz → ℚ)
    (obst : Arr3 nx ny nz) :
    calc_p p uf vf wf rho dt dx dy dz obst =
      (closePhase (maskPhase (anchorPhase (writeSol p
          (solvePhase (bicgstab TOL (maxiterOf nx ny nz))
            (assemblePhase p uf vf wf rho dt dx dy dz obst)).1)) obst),
       ⟨maxAbs3 (assemblePhase p uf vf wf rho dt dx dy dz obst).2,
        sum3 (assemblePhase p uf vf wf rho dt dx dy dz obst).2,
        (solvePhase (bicgstab TOL (maxiterOf nx ny nz))
          (assemblePhase p uf vf wf rho dt dx dy dz obst)).2⟩) := rfl

lemma cpf_name (solver : (Idx3 nx ny nz → Idx3 nx ny nz → ℚ) → Arr3 nx ny nz →
      Arr3 nx ny nz × ℕ) (A : Idx3 nx ny nz → Idx3 nx ny nz → ℚ)
    (b : Arr3 nx ny nz) (p : Unknown nx ny nz) (obst : Arr3 nx ny nz) :
    (calcPressureFrom solver A b p obst).1.name = p.name := by
  unfold calcPressureFrom closePhase maskPhase
  split <;> rfl

lemma cpf_pos (solver : (Idx3 nx ny nz → Idx3 nx ny nz → ℚ) → Arr3 nx ny nz →
      Arr3 nx ny nz × ℕ) (A : Idx3 nx ny nz → Idx3 nx ny nz → ℚ)
    (b : Arr3 nx ny nz) (p : Unknown nx ny nz) (obst : Arr3 nx ny nz) :
    (calcPressureFrom solver A b p obst).1.pos = p.pos := by
  unfold calcPressureFrom closePhase maskPhase
  split <;> rfl

lemma cpf_old (solver : (Idx3 nx ny nz → Idx3 nx ny nz → ℚ) → Arr3 nx ny nz →
      Arr3 nx ny nz × ℕ) (A : Idx3 nx ny nz → Idx3 nx ny nz → ℚ)
    (b : Arr3 nx ny nz) (p : Unknown nx ny nz) (obst : Arr3 nx ny nz) :
    (calcPressureFrom solver A b p obst).1.old = p.old := by
  unfold calcPressureFrom closePhase maskPhase
  split <;> rfl

lemma cpf_typs (solver : (Idx3 nx ny nz → Idx3 nx ny nz → ℚ) → Arr3 nx ny nz →
      Arr3 nx ny nz × ℕ) (A : Idx3 nx ny nz → Idx3 nx ny nz → ℚ)
    (b : Arr3 nx ny nz) (p : Unknown nx ny nz) (obst : Arr3 nx ny nz) :
    (calcPressureFrom solver A b p obst).1.bndW_typ = p.bndW_typ ∧
    (calcPressureFrom solver A b p obst).1.bndE_typ = p.bndE_typ ∧
    (calcPressureFrom solver A b p obst).1.bndS_typ = p.bndS_typ ∧
    (calcPressureFrom solver A b p obst).1.bndN_typ = p.bndN_typ ∧
    (calcPressureFrom solver A b p obst).1.bndB_typ = p.bndB_typ ∧
    (calcPressureFrom solver A b p obst).1.bndT_typ = p.bndT_typ := by
  unfold calcPressureFrom closePhase maskPhase
  split <;> exact ⟨rfl, rfl, rfl, rfl, rfl, rfl⟩

/-- The claim `C2`: the right-hand side of the linear system solved in
`calc_p` is exactly the `vol_balance` divergence of the current face
velocities with an all-zero obstacle mask — the RHS returned by
`create_matrix` is discarded (only the `.1` matrix component of the
assembly enters the pipeline) — while the post-correction diagnostic in
the time-step driver recomputes `vol_balance` over the corrected face
velocities with the actual obstacle mask; the two call sites differ
precisely in the mask argument. -/
theorem calc_p_rhs_and_diag_mask_asymmetry :
    (∀ (nx ny nz : ℕ) (p : Unknown nx ny nz) (uf : Unknown (nx - 1) ny nz)
       (vf : Unknown nx (ny - 1) nz) (wf : Unknown nx ny (nz - 1))
       (rho : Arr3 nx ny nz) (dt : ℚ) (dx : Fin nx → ℚ) (dy : Fin ny → ℚ)
       (dz : Fin nz → ℚ) (obst : Arr3 nx ny nz),
       calc_p p uf vf wf rho dt dx dy dz obst =
         calcPressureFrom (bicgstab TOL (maxiterOf nx ny nz))
           (create_matrix p zeroArr (fun i j k => dt / rho i j k) dx dy dz obst
             DiscMode.poisson).1
           (vol_balance uf vf wf dx dy dz zeroArr) p obst) ∧
    (∀ (nx ny nz : ℕ) (pr : SimParams nx ny nz) (s : SimState nx ny nz),
       (timeStep pr s).2.errArr =
         vol_balance (timeStep pr s).1.uf (timeStep pr s).1.vf
           (timeStep pr s).1.wf pr.dx pr.dy pr.dz pr.obst) :=
  ⟨fun _ _ _ p uf vf wf rho dt dx dy dz obst =>
     calc_p_gen_eq _ p uf vf wf rho dt dx dy dz obst,
   fun _ _ _ _ _ => rfl⟩

/-- The claim `C8`: `calc_p` mutates only the pressure field — its
value array and, through the Neumann closure, its boundary value slabs.
The face-velocity fields, density, time step, spacings and obstacle
mask are unchanged, and within the pressure field the name, position
tag, old-value snapshot and all six boundary-condition kind slabs are
also unchanged; beyond the mutated field only the printed diagnostics
are produced. -/
theorem calc_p_frame (s : PState nx ny nz) :
    (calc_p_step s).1.uf = s.uf ∧ (calc_p_step s).1.vf = s.vf ∧
    (calc_p_step s).1.wf = s.wf ∧ (calc_p_step s).1.rho = s.rho ∧
    (calc_p_step s).1.dt = s.dt ∧ (calc_p_step s).1.dx = s.dx ∧
    (calc_p_step s).1.dy = s.dy ∧ (calc_p_step s).1.dz = s.dz ∧
    (calc_p_step s).1.obst = s.obst ∧
    (calc_p_step s).1.p.name = s.p.name ∧
    (calc_p_step s).1.p.pos = s.p.pos ∧
    (calc_p_step s).1.p.old = s.p.old ∧
    (calc_p_step s).1.p.bndW_typ = s.p.bndW_typ ∧
    (calc_p_step s).1.p.bndE_typ = s.p.bndE_typ ∧
    (calc_p_step s).1.p.bndS_typ = s.p.bndS_typ ∧
    (calc_p_step s).1.p.bndN_typ = s.p.bndN_typ ∧
    (calc_p_step s).1.p.bndB_typ = s.p.bndB_typ ∧
    (calc_p_step s).1.p.bndT_typ = s.p.bndT_typ := by
  have e : (calc_p_step s).1.p =
      (calcPressureFrom (bicgstab TOL (maxiterOf nx ny nz))
        (create_matrix s.p zeroArr (fun i j k => s.dt / s.rho i j k) s.dx s.dy
          s.dz s.obst DiscMode.poisson).1
        (vol_balance s.uf s.vf s.wf s.dx s.dy s.dz zeroArr) s.p s.obst).1 := by
    show (calc_p s.p s.uf s.vf s.wf s.rho s.dt s.dx s.dy s.dz s.obst).1 = _
    unfold calc_p
    rw [calc_p_gen_eq]
  obtain ⟨h1, h2, h3, h4, h5, h6⟩ := cpf_typs (bicgstab TOL (maxiterOf nx ny nz))
    (create_matrix s.p zeroArr (fun i j k => s.dt / s.rho i j k) s.dx s.dy s.dz
      s.obst DiscMode.poisson).1
    (vol_balance s.uf s.vf s.wf s.dx s.dy s.dz zeroArr) s.p s.obst
  exact ⟨rfl, rfl, rfl, rfl, rfl, rfl, rfl, rfl, rfl,
    by rw [e]; exact cpf_name _ _ _ _ _,
    by rw [e]; exact cpf_pos _ _ _ _ _,
    by rw [e]; exact cpf_old _ _ _ _ _,
    by rw [e]; exact h1, by rw [e]; exact h2, by rw [e]; exact h3,
    by rw [e]; exact h4, by rw [e]; exact h5, by rw [e]; exact h6⟩

lemma normSq3_zeroArr : normSq3 (zeroArr : Arr3 nx ny nz) = 0 := by
  simp [normSq3, dot3, zeroArr]

lemma bicgstab_zeroArr (tol : ℚ) (maxiter : ℕ)
    (A : Idx3 nx ny nz → Idx3 nx ny nz → ℚ) :
    bicgstab tol maxiter A zeroArr = (zeroArr, 0) := by
  unfold bicgstab
  rw [if_pos normSq3_zeroArr]

lemma anchor_zeroArr : anchor (zeroArr : Arr3 nx ny nz) = zeroArr := by
  funext i j k
  simp [anchor, mean3, sum3, zeroArr]

lemma maskPhase_val_zero (q : Unknown nx ny nz) (obst : Arr3 nx ny nz)
    (h : q.val = zeroArr) : (maskPhase q obst).val = zeroArr := by
  unfold maskPhase
  split
  · show obst_zero_val q.pos q.val obst = zeroArr
    rw [h]
    funext i j k
    simp [obst_zero_val, zeroArr]
  · exact h

lemma maskPhase_typs (q : Unknown nx ny nz) (obst : Arr3 nx ny nz) :
    (maskPhase q obst).bndW_typ = q.bndW_typ ∧
    (maskPhase q obst).bndE_typ = q.bndE_typ ∧
    (maskPhase q obst).bndS_typ = q.bndS_typ ∧
    (maskPhase q obst).bndN_typ = q.bndN_typ ∧
    (maskPhase q obst).bndB_typ = q.bndB_typ ∧
    (maskPhase q obst).bndT_typ = q.bndT_typ := by
  unfold maskPhase
  split <;> exact ⟨rfl, rfl, rfl, rfl, rfl, rfl⟩

lemma calc_p_zero_b (p : Unknown nx ny nz) (uf : Unknown (nx - 1) ny nz)
    (vf : Unknown nx (ny - 1) nz) (wf : Unknown nx ny (nz - 1))
    (rho : Arr3 nx ny nz) (dt : ℚ) (dx : Fin nx → ℚ) (dy : Fin ny → ℚ)
    (dz : Fin nz → ℚ) (obst : Arr3 nx ny nz)
    (hb : vol_balance uf vf wf dx dy dz zeroArr = zeroArr) :
    ((calc_p p uf vf wf rho dt dx dy dz obst).1).val = zeroArr ∧
    (calc_p p uf vf wf rho dt dx dy dz obst).2.solverInfo = 0 := by
  unfold calc_p
  rw [calc_p_gen_eq, hb]
  unfold calcPressureFrom
  rw [bicgstab_zeroArr]
  constructor
  · show (maskPhase (anchorPhase (writeSol p zeroArr)) obst).val = zeroArr
    exact maskPhase_val_zero _ obst (by show anchor zeroArr = zeroArr; exact anchor_zeroArr)
  · rfl

lemma adj_n_bnds_neumann_zero (q : Unknown nx ny nz) (hval : q.val = zeroArr)
    (hx : 0 < nx) (hy : 0 < ny) (hz : 0 < nz) :
    (∀ j k, q.bndW_typ j k = BCType.neumann → (adj_n_bnds q).bndW_val j k = 0) ∧
    (∀ j k, q.bndE_typ j k = BCType.neumann → (adj_n_bnds q).bndE_val j k = 0) ∧
    (∀ i k, q.bndS_typ i k = BCType.neumann → (adj_n_bnds q).bndS_val i k = 0) ∧
    (∀ i k, q.bndN_typ i k = BCType.neumann → (adj_n_bnds q).bndN_val i k = 0) ∧
    (∀ i j, q.bndB_typ i j = BCType.neumann → (adj_n_bnds q).bndB_val i j = 0) ∧
    (∀ i j, q.bndT_typ i j = BCType.neumann → (adj_n_bnds q).bndT_val i j = 0) := by
  refine ⟨fun j k ht => ?_, fun j k ht => ?_, fun i k ht => ?_, fun i k ht => ?_,
    fun i j ht => ?_, fun i j ht => ?_⟩ <;>
    · show (if _ = BCType.neumann then _ else _) = 0
      rw [if_pos ht]
      first
      | rw [dif_pos hx] | rw [dif_pos hy] | rw [dif_pos hz]
      rw [hval]
      rfl

/-- The claim `C7`: on a nonempty grid with an all-zero obstacle mask,
an all-Neumann pressure field and an all-zero divergence source
computed from the face velocities, `calc_p` produces a pressure field
that is uniformly `0` everywhere — interior and all six boundary slabs
— with the solver converging immediately (report `0`, within any
iteration cap). -/
theorem calc_p_zero_source_uniform_zero (p : Unknown nx ny nz)
    (uf : Unknown (nx - 1) ny nz) (vf : Unknown nx (ny - 1) nz)
    (wf : Unknown nx ny (nz - 1)) (rho : Arr3 nx ny nz) (dt : ℚ)
    (dx : Fin nx → ℚ) (dy : Fin ny → ℚ) (dz : Fin nz → ℚ)
    (obst : Arr3 nx ny nz) (hx : 0 < nx) (hy : 0 < ny) (hz : 0 < nz)
    (_hobst : obst = zeroArr)
    (hb : vol_balance uf vf wf dx dy dz zeroArr = zeroArr)
    (hW : p.bndW_typ = fun _ _ => BCType.neumann)
    (hE : p.bndE_typ = fun _ _ => BCType.neumann)
    (hS : p.bndS_typ = fun _ _ => BCType.neumann)
    (hN : p.bndN_typ = fun _ _ => BCType.neumann)
    (hB : p.bndB_typ = fun _ _ => BCType.neumann)
    (hT : p.bndT_typ = fun _ _ => BCType.neumann) :
    ((calc_p p uf vf wf rho dt dx dy dz obst).1).val = zeroArr ∧
    (calc_p p uf vf wf rho dt dx dy dz obst).1.bndW_val = (fun _ _ => 0) ∧
    (calc_p p uf vf wf rho dt dx dy dz obst).1.bndE_val = (fun _ _ => 0) ∧
    (calc_p p uf vf wf rho dt dx dy dz obst).1.bndS_val = (fun _ _ => 0) ∧
    (calc_p p uf vf wf rho dt dx dy dz obst).1.bndN_val = (fun _ _ => 0) ∧
    (calc_p p uf vf wf rho dt dx dy dz obst).1.bndB_val = (fun _ _ => 0) ∧
    (calc_p p uf vf wf rho dt dx dy dz obst).1.bndT_val = (fun _ _ => 0) ∧
    (calc_p p uf vf wf rho dt dx dy dz obst).2.solverInfo = 0 := by
  have hzb := calc_p_zero_b p uf vf wf rho dt dx dy dz obst hb
  have hqval : (maskPhase (anchorPhase (writeSol p
      ((bicgstab TOL (maxiterOf nx ny nz)
        (create_matrix p zeroArr (fun i j k => dt / rho i j k) dx dy dz obst
          DiscMode.poisson).1
        (vol_balance uf vf wf dx dy dz zeroArr)).1))) obst).val = zeroArr := by
    rw [hb, bicgstab_zeroArr]
    exact maskPhase_val_zero _ obst anchor_zeroArr
  obtain ⟨w1, w2, w3, w4, w5, w6⟩ := adj_n_bnds_neumann_zero _ hqval hx hy hz
  refine ⟨hzb.1,
    funext fun j => funext fun k => w1 j k ?_,
    funext fun j => funext fun k => w2 j k ?_,
    funext fun i => funext fun k => w3 i k ?_,
    funext fun i => funext fun k => w4 i k ?_,
    funext fun i => funext fun j => w5 i j ?_,
    funext fun i => funext fun j => w6 i j ?_,
    hzb.2⟩
  · rw [(maskPhase_typs _ _).1]
    show p.bndW_typ _ _ = BCType.neumann
    rw [hW]
  · rw [(maskPhase_typs _ _).2.1]
    show p.bndE_typ _ _ = BCType.neumann
    rw [hE]
  · rw [(maskPhase_typs _ _).2.2.1]
    show p.bndS_typ _ _ = BCType.neumann
    rw [hS]
  · rw [(maskPhase_typs _ _).2.2.2.1]
    show p.bndN_typ _ _ = BCType.neumann
    rw [hN]
  · rw [(maskPhase_typs _ _).2.2.2.2.1]
    show p.bndB_typ _ _ = BCType.neumann
    rw [hB]
  · rw [(maskPhase_typs _ _).2.2.2.2.2]
    show p.bndT_typ _ _ = BCType.neumann
    rw [hT]

lemma vb_zero_of_zero_faces (uf : Unknown (nx - 1) ny nz)
    (vf : Unknown nx (ny - 1) nz) (wf : Unknown nx ny (nz - 1))
    (dx : Fin nx → ℚ) (dy : Fin ny → ℚ) (dz : Fin nz → ℚ)
    (obst : Arr3 nx ny nz)
    (h1 : uf.val = zeroArr) (h2 : uf.bndW_val = fun _ _ => 0)
    (h3 : uf.bndE_val = fun _ _ => 0)
    (h4 : vf.val = zeroArr) (h5 : vf.bndS_val = fun _ _ => 0)
    (h6 : vf.bndN_val = fun _ _ => 0)
    (h7 : wf.val = zeroArr) (h8 : wf.bndB_val = fun _ _ => 0)
    (h9 : wf.bndT_val = fun _ _ => 0) :
    vol_balance uf vf wf dx dy dz obst = zeroArr := by
  funext i j k
  show (if _ then _ else _) = zeroArr i j k
  rw [show zeroArr i j k = 0 from rfl]
  split
  · rfl
  · simp only [h1, h2, h3, h4, h5, h6, h7, h8, h9, zeroArr, dite_eq_ite,
      ite_self]
    ring

/-- Concrete 4×4×4 all-Neumann pressure field. -/
def p4Fix : Unknown 4 4 4 := create_unknown "pressure" VarPos.cell 4 4 4 BCType.neumann

/-- Concrete 4×4×4 x-face velocity field, identically zero. -/
def uf4Fix : Unknown 3 4 4 := create_unknown "face-u-vel" VarPos.xFace 3 4 4 BCType.dirichlet

/-- Concrete 4×4×4 y-face velocity field, identically zero. -/
def vf4Fix : Unknown 4 3 4 := create_unknown "face-v-vel" VarPos.yFace 4 3 4 BCType.dirichlet

/-- Concrete 4×4×4 z-face velocity field, identically zero. -/
def wf4Fix : Unknown 4 4 3 := create_unknown "face-w-vel" VarPos.zFace 4 4 3 BCType.dirichlet

/-- Unit density on the 4×4×4 fixture. -/
def one4 : Arr3 4 4 4 := fun _ _ _ => 1

/-- Unit spacing on the 4×4×4 fixture. -/
def unit4 : Fin 4 → ℚ := fun _ => 1

theorem calc_p_zero_source_uniform_zero_witness :
    vol_balance uf4Fix vf4Fix wf4Fix unit4 unit4 unit4 zeroArr = zeroArr ∧
    ((calc_p p4Fix uf4Fix vf4Fix wf4Fix one4 1 unit4 unit4 unit4 zeroArr).1).val
      = zeroArr ∧
    (calc_p p4Fix uf4Fix vf4Fix wf4Fix one4 1 unit4 unit4 unit4
      zeroArr).2.solverInfo = 0 := by
  have hb : vol_balance uf4Fix vf4Fix wf4Fix unit4 unit4 unit4 zeroArr = zeroArr :=
    vb_zero_of_zero_faces uf4Fix vf4Fix wf4Fix unit4 unit4 unit4 zeroArr rfl rfl
      rfl rfl rfl rfl rfl rfl rfl
  have h := calc_p_zero_source_uniform_zero p4Fix uf4Fix vf4Fix wf4Fix one4 1
    unit4 unit4 unit4 zeroArr (by norm_num) (by norm_num) (by norm_num) rfl hb
    rfl rfl rfl rfl rfl rfl
  exact ⟨hb, h.1, h.2.2.2.2.2.2.2⟩

lemma corr_uvw_f_zero_p (uf : Unknown (nx - 1) ny nz)
    (vf : Unknown nx (ny - 1) nz) (wf : Unknown nx ny (nz - 1))
    (p : Unknown nx ny nz) (rho : Arr3 nx ny nz) (dt : ℚ) (dx : Fin nx → ℚ)
    (dy : Fin ny → ℚ) (dz : Fin nz → ℚ) (obst : Arr3 nx ny nz)
    (hp : p.val = zeroArr) :
    corr_uvw_f uf vf wf p rho dt dx dy dz obst = (uf, vf, wf) := by
  unfold corr_uvw_f
  simp only [hp, zeroArr, sub_self, mul_zero, zero_div, sub_zero]

/-- The claim `C6` (amended): when the pre-correction volume imbalance
is already zero everywhere, one full `calc_p` + `corr_uvw` cycle keeps
it exactly zero — the maximum absolute cell-wise imbalance does not
increase, but it does not strictly decrease either, so strict decrease
cannot hold for every initial face-velocity field. -/
theorem divergence_zero_imbalance_preserved (p : Unknown nx ny nz)
    (uf : Unknown (nx - 1) ny nz) (vf : Unknown nx (ny - 1) nz)
    (wf : Unknown nx ny (nz - 1)) (rho : Arr3 nx ny nz) (dt : ℚ)
    (dx : Fin nx → ℚ) (dy : Fin ny → ℚ) (dz : Fin nz → ℚ)
    (obst : Arr3 nx ny nz)
    (hb : vol_balance uf vf wf dx dy dz zeroArr = zeroArr) :
    vol_balance
        (corr_uvw_f uf vf wf (calc_p p uf vf wf rho dt dx dy dz obst).1 rho dt
          dx dy dz obst).1
        (corr_uvw_f uf vf wf (calc_p p uf vf wf rho dt dx dy dz obst).1 rho dt
          dx dy dz obst).2.1
        (corr_uvw_f uf vf wf (calc_p p uf vf wf rho dt dx dy dz obst).1 rho dt
          dx dy dz obst).2.2 dx dy dz zeroArr = zeroArr ∧
    maxAbs3 (vol_balance
        (corr_uvw_f uf vf wf (calc_p p uf vf wf rho dt dx dy dz obst).1 rho dt
          dx dy dz obst).1
        (corr_uvw_f uf vf wf (calc_p p uf vf wf rho dt dx dy dz obst).1 rho dt
          dx dy dz obst).2.1
        (corr_uvw_f uf vf wf (calc_p p uf vf wf rho dt dx dy dz obst).1 rho dt
          dx dy dz obst).2.2 dx dy dz zeroArr) ≤
      maxAbs3 (vol_balance uf vf wf dx dy dz zeroArr) := by
  have hval := (calc_p_zero_b p uf vf wf rho dt dx dy dz obst hb).1
  have hface := corr_uvw_f_zero_p uf vf wf
    (calc_p p uf vf wf rho dt dx dy dz obst).1 rho dt dx dy dz obst hval
  rw [hface]
  exact ⟨hb, le_refl _⟩

theorem divergence_zero_imbalance_preserved_witness :
    vol_balance uf1Fix vf1Fix wf1Fix unit1 unit1 unit1 zeroArr = zeroArr ∧
    vol_balance
        (corr_uvw_f uf1Fix vf1Fix wf1Fix
          (calc_p p1Fix uf1Fix vf1Fix wf1Fix one1 1 unit1 unit1 unit1
            zeroArr).1 one1 1 unit1 unit1 unit1 zeroArr).1
        (corr_uvw_f uf1Fix vf1Fix wf1Fix
          (calc_p p1Fix uf1Fix vf1Fix wf1Fix one1 1 unit1 unit1 unit1
            zeroArr).1 one1 1 unit1 unit1 unit1 zeroArr).2.1
        (corr_uvw_f uf1Fix vf1Fix wf1Fix
          (calc_p p1Fix uf1Fix vf1Fix wf1Fix one1 1 unit1 unit1 unit1
            zeroArr).1 one1 1 unit1 unit1 unit1 zeroArr).2.2 unit1 unit1 unit1
        zeroArr = zeroArr := by
  have hb : vol_balance uf1Fix vf1Fix wf1Fix unit1 unit1 unit1 zeroArr = zeroArr :=
    vb_zero_of_zero_faces uf1Fix vf1Fix wf1Fix unit1 unit1 unit1 zeroArr rfl rfl
      rfl rfl rfl rfl rfl rfl rfl
  exact ⟨hb,
    (divergence_zero_imbalance_preserved p1Fix uf1Fix vf1Fix wf1Fix one1 1
      unit1 unit1 unit1 zeroArr hb).1⟩

/-- Counterexample to the claim `C6` as stated: for the all-zero
(already divergence-free) face-velocity field on a 1×1×1 grid with no
obstacles, the maximum absolute cell-wise volume imbalance after one
full `calc_p` + `corr_uvw` cycle does not strictly decrease relative to
its pre-correction value — both are exactly `0`. -/
theorem divergence_strict_decrease_fails :
    ¬ (maxAbs3 (vol_balance
        (corr_uvw_f uf1Fix vf1Fix wf1Fix
          (calc_p p1Fix uf1Fix vf1Fix wf1Fix one1 1 unit1 unit1 unit1
            zeroArr).1 one1 1 unit1 unit1 unit1 zeroArr).1
        (corr_uvw_f uf1Fix vf1Fix wf1Fix
          (calc_p p1Fix uf1Fix vf1Fix wf1Fix one1 1 unit1 unit1 unit1
            zeroArr).1 one1 1 unit1 unit1 unit1 zeroArr).2.1
        (corr_uvw_f uf1Fix vf1Fix wf1Fix
          (calc_p p1Fix uf1Fix vf1Fix wf1Fix one1 1 unit1 unit1 unit1
            zeroArr).1 one1 1 unit1 unit1 unit1 zeroArr).2.2 unit1 unit1 unit1
        zeroArr) <
      maxAbs3 (vol_balance uf1Fix vf1Fix wf1Fix unit1 unit1 unit1 zeroArr)) := by
  have hb : vol_balance uf1Fix vf1Fix wf1Fix unit1 unit1 unit1 zeroArr = zeroArr :=
    vb_zero_of_zero_faces uf1Fix vf1Fix wf1Fix unit1 unit1 unit1 zeroArr rfl rfl
      rfl rfl rfl rfl rfl rfl rfl
  have hval := (calc_p_zero_b p1Fix uf1Fix vf1Fix wf1Fix one1 1 unit1 unit1
    unit1 zeroArr hb).1
  have hface := corr_uvw_f_zero_p uf1Fix vf1Fix wf1Fix
    (calc_p p1Fix uf1Fix vf1Fix wf1Fix one1 1 unit1 unit1 unit1 zeroArr).1 one1
    1 unit1 unit1 unit1 zeroArr hval
  rw [hface]
  exact lt_irrefl _

/-- The claim `C9`: each driver time step is exactly the sequential
composition of the phases — store old values, transport the scalar
(`calc_t`), transport momentum (`calc_uvw`), assemble and solve the
pressure correction (`calc_p`), correct cell-centered then
face-centered velocities (`corr_uvw` twice), then recompute the
volume-balance divergence and the CFL number as diagnostics.  Each
phase is a pure function of the state left by the previous one, so no
phase begins before the previous has completed. -/
theorem timeStep_phase_order (pr : SimParams nx ny nz) (s : SimState nx ny nz) :
    timeStep pr s =
      (phCorrFaces pr (phCorrCells pr
          (phCalcP pr (phCalcUVW pr (phCalcT pr (phStoreOld s)))).1),
       ⟨phDiagErr pr (phCorrFaces pr (phCorrCells pr
            (phCalcP pr (phCalcUVW pr (phCalcT pr (phStoreOld s)))).1)),
        maxAbs3 (phDiagErr pr (phCorrFaces pr (phCorrCells pr
            (phCalcP pr (phCalcUVW pr (phCalcT pr (phStoreOld s)))).1))),
        phCfl pr (phCorrFaces pr (phCorrCells pr
            (phCalcP pr (phCalcUVW pr (phCalcT pr (phStoreOld s)))).1)),
        (phCalcP pr (phCalcUVW pr (phCalcT pr (phStoreOld s)))).2⟩) := rfl

lemma timeStep_face_old (pr : SimParams nx ny nz) (s : SimState nx ny nz) :
    (timeStep pr s).1.uf.old = s.uf.old ∧
    (timeStep pr s).1.vf.old = s.vf.old ∧
    (timeStep pr s).1.wf.old = s.wf.old :=
  ⟨rfl, rfl, rfl⟩

lemma runSteps_face_old (pr : SimParams nx ny nz) (n : ℕ) (s : SimState nx ny nz) :
    (runSteps pr n s).uf.old = s.uf.old ∧
    (runSteps pr n s).vf.old = s.vf.old ∧
    (runSteps pr n s).wf.old = s.wf.old := by
  induction n generalizing s with
  | zero => exact ⟨rfl, rfl, rfl⟩
  | succ n ih =>
      obtain ⟨h1, h2, h3⟩ := ih (timeStep pr s).1
      obtain ⟨g1, g2, g3⟩ := timeStep_face_old pr s
      exact ⟨h1.trans g1, h2.trans g2, h3.trans g3⟩

/-- The claim `C10`: in every time step only the temperature and the
three cell-centered velocity components get their old-value snapshot
rewritten (to the preceding value array), while the face-velocity
fields' old-value arrays are carried through unchanged; consequently,
over a whole run started from the driver setup they remain the all-zero
arrays `create_unknown` installed at construction. -/
theorem face_velocity_old_invariant :
    (∀ (nx ny nz : ℕ) (pr : SimParams nx ny nz) (s : SimState nx ny nz),
      (timeStep pr s).1.t.old = s.t.val ∧
      (timeStep pr s).1.uc.old = s.uc.val ∧
      (timeStep pr s).1.vc.old = s.vc.val ∧
      (timeStep pr s).1.wc.old = s.wc.val ∧
      (timeStep pr s).1.uf.old = s.uf.old ∧
      (timeStep pr s).1.vf.old = s.vf.old ∧
      (timeStep pr s).1.wf.old = s.wf.old) ∧
    (∀ (nx ny nz : ℕ) (pr : SimParams nx ny nz)
       (inflow : Fin ny → Fin nz → ℚ) (tWest : Fin ny → Fin nz → ℚ) (n : ℕ),
      (runSteps pr n (initState nx ny nz inflow tWest)).uf.old = zeroArr ∧
      (runSteps pr n (initState nx ny nz inflow tWest)).vf.old = zeroArr ∧
      (runSteps pr n (initState nx ny nz inflow tWest)).wf.old = zeroArr) := by
  constructor
  · intro nx ny nz pr s
    exact ⟨rfl, rfl, rfl, rfl, rfl, rfl, rfl⟩
  · intro nx ny nz pr inflow tWest n
    obtain ⟨h1, h2, h3⟩ := runSteps_face_old pr n (initState nx ny nz inflow tWest)
    exact ⟨h1, h2, h3⟩

/-- Concrete 1×1×1 all-Dirichlet pressure field: its single cell's
Poisson row has a nonzero diagonal (the six Dirichlet boundary folds),
so different iterates have different residuals. -/
def pDFix : Unknown 1 1 1 := create_unknown "pressure" VarPos.cell 1 1 1 BCType.dirichlet

/-- A stand-in solver that reports non-convergence after 42 iterations
and hands back the zero iterate. -/
def zeroSolver : (Idx3 1 1 1 → Idx3 1 1 1 → ℚ) → Arr3 1 1 1 → Arr3 1 1 1 × ℕ :=
  fun _ _ => (zeroArr, 42)

/-- The Poisson matrix `calc_p` assembles for the 1×1×1 all-Dirichlet
fixture. -/
def ADFix : Idx3 1 1 1 → Idx3 1 1 1 → ℚ :=
  (create_matrix pDFix zeroArr (fun i j k => 1 / one1 i j k) unit1 unit1 unit1
    zeroArr DiscMode.poisson).1

/-- The divergence source `calc_p` solves against for the 1×1×1
fixture's zero face velocities. -/
def bDFix : Arr3 1 1 1 := vol_balance uf1Fix vf1Fix wf1Fix unit1 unit1 unit1 zeroArr

/-- Counterexample to the claim `C3` as stated: the achieved residual
is not returned or reported to the caller.  On the concrete 1×1×1
all-Dirichlet pressure system, two solver outcomes sharing the report
`info = 42` but returning different iterates — and hence having
different achieved residuals `‖b − A·x‖²` (`0` for the zero iterate
versus `7056` for the constant-7 iterate) — produce identical
caller-visible diagnostics from `calc_p`, so what the code reports
cannot contain the achieved residual. -/
theorem calc_p_residual_not_reported :
    (calc_p_gen zeroSolver pDFix uf1Fix vf1Fix wf1Fix one1 1 unit1 unit1 unit1
        zeroArr).2 =
      (calc_p_gen badSolver pDFix uf1Fix vf1Fix wf1Fix one1 1 unit1 unit1
        unit1 zeroArr).2 ∧
    normSq3 (fun i j k => bDFix i j k - matvec ADFix zeroArr i j k) ≠
      normSq3 (fun i j k => bDFix i j k - matvec ADFix sevenArr i j k) := by
  have hb : bDFix = zeroArr := by
    show vol_balance uf1Fix vf1Fix wf1Fix unit1 unit1 unit1 zeroArr = zeroArr
    exact vb_zero_of_zero_faces uf1Fix vf1Fix wf1Fix unit1 unit1 unit1 zeroArr
      rfl rfl rfl rfl rfl rfl rfl rfl rfl
  have hA : ∀ P Q : Idx3 1 1 1, ADFix P Q = 12 := by
    intro P Q
    obtain ⟨⟨i, hi⟩, ⟨j, hj⟩, ⟨k, hk⟩⟩ := P
    obtain ⟨⟨i2, hi2⟩, ⟨j2, hj2⟩, ⟨k2, hk2⟩⟩ := Q
    interval_cases i
    interval_cases j
    interval_cases k
    interval_cases i2
    interval_cases j2
    interval_cases k2
    simp [ADFix, create_matrix, pDFix, create_unknown, one1, unit1, zeroArr]
    norm_num
  have e1 : normSq3 (fun i j k => bDFix i j k - matvec ADFix zeroArr i j k) = 0 := by
    have h0 : ∀ (i j k : Fin 1), matvec ADFix (zeroArr : Arr3 1 1 1) i j k = 0 := by
      intro i j k
      simp [matvec, zeroArr]
    simp only [hb, h0]
    simp only [zeroArr, sub_zero]
    exact normSq3_zeroArr
  have e2 : normSq3 (fun i j k => bDFix i j k - matvec ADFix sevenArr i j k) = 7056 := by
    have hm : ∀ (i j k : Fin 1), matvec ADFix sevenArr i j k = 84 := by
      intro i j k
      simp [matvec, Fintype.sum_prod_type, hA, sevenArr]
      norm_num
    simp only [hb, hm, zeroArr]
    simp [normSq3, dot3]
    norm_num
  refine ⟨rfl, ?_⟩
  rw [e1, e2]
  norm_num
